import Mathlib

/-!
Verification of the clickspectre analysis pipeline against its specification.

The Go sources are shallowly embedded: Go strings become `String` (one `Char`
per rune; the identifiers and patterns involved are ASCII), `time.Time` becomes
`Int` (unix seconds), `uint64` counters become `Nat` (no claim touches wrap
around), `float64` sizes and scores become `Rat`, Go maps become association
lists, and fallible stdlib calls return `Except`.  Each definition mirrors the
corresponding Go function; where a Go standard-library routine is needed
(`strings`, `path.Match`, `net/url`) it is itself modelled here.
-/

namespace ClickSpectre

/-! ## Go `strings` primitives -/

/-- Model of the ASCII fragment of `unicode.IsSpace` used by `strings.TrimSpace`
(`' '`, `'\t'`, `'\n'`, `'\v'`, `'\f'`, `'\r'`, by code point). -/
def goIsSpace (c : Char) : Bool :=
  decide (c.toNat = 32 ∨ c.toNat = 9 ∨ c.toNat = 10 ∨ c.toNat = 11 ∨
    c.toNat = 12 ∨ c.toNat = 13)

/-- ASCII lower-casing of one character (`'A'..'Z'` shifted by 32), as
`strings.ToLower` does for ASCII. -/
def charLowerAscii (c : Char) : Char :=
  if 65 ≤ c.toNat ∧ c.toNat ≤ 90 then Char.ofNat (c.toNat + 32) else c

/-- ASCII upper-casing of one character (`'a'..'z'` shifted by 32), as
`strings.ToUpper` does for ASCII. -/
def charUpperAscii (c : Char) : Char :=
  if 97 ≤ c.toNat ∧ c.toNat ≤ 122 then Char.ofNat (c.toNat - 32) else c

/-- Model of `strings.ToLower` (ASCII fragment). -/
def strLower (s : String) : String := ⟨s.data.map charLowerAscii⟩

/-- Model of `strings.ToUpper` (ASCII fragment). -/
def strUpper (s : String) : String := ⟨s.data.map charUpperAscii⟩

/-- Model of `strings.TrimSpace` on a character list. -/
def listTrim (l : List Char) : List Char :=
  ((l.dropWhile goIsSpace).reverse.dropWhile goIsSpace).reverse

/-- Model of `strings.TrimSpace`. -/
def strTrim (s : String) : String := ⟨listTrim s.data⟩

/-- `listStartsWith s p` holds when `s` begins with `p` (model of `strings.HasPrefix s p`). -/
def listStartsWith : List Char → List Char → Bool
  | _, [] => true
  | [], _ :: _ => false
  | c :: cs, p :: ps => c == p && listStartsWith cs ps

/-- Model of `strings.HasPrefix s pre`. -/
def strStartsWith (s pre : String) : Bool := listStartsWith s.data pre.data

/-- `listHasInfix s sub` holds when `sub` occurs contiguously inside `s`. -/
def listHasInfix : List Char → List Char → Bool
  | [], sub => sub.isEmpty
  | c :: cs, sub => listStartsWith (c :: cs) sub || listHasInfix cs sub

/-- Model of `strings.Contains s sub`. -/
def strContains (s sub : String) : Bool := listHasInfix s.data sub.data

/-- Split a character list at the first `'.'`, if any (model of `strings.SplitN _ "." 2`). -/
def splitFirstDot : List Char → Option (List Char × List Char)
  | [] => none
  | c :: cs =>
    if c = '.' then some ([], cs)
    else match splitFirstDot cs with
      | none => none
      | some (a, b) => some (c :: a, b)

/-! ## Model of Go `path.Match`

A faithful translation of `path/match.go` (chunk scanning, character classes,
`\` escapes, the trailing-`*` shortcut, and the syntactic validation of the
unmatched remainder).  The mutually recursive loops are written with an
explicit fuel argument that strictly decreases on every call; the initial fuel
dominates the termination measure of the Go loops (each outer iteration
consumes at least one pattern character, each star step one name character),
so the fuel-exhausted branch is unreachable. -/

/-- Consume leading `'*'` characters of a pattern (first loop of `scanChunk`). -/
def stripStars : List Char → Bool × List Char
  | [] => (false, [])
  | c :: cs => if c = '*' then (true, (stripStars cs).snd) else (false, c :: cs)

/-- The `Scan` loop of Go `scanChunk`: split off one chunk, tracking `inrange`. -/
def scanBody : List Char → Bool → List Char × List Char
  | [], _ => ([], [])
  | c :: cs, inrange =>
    if c = '\\' then
      match cs with
      | d :: ds => let (ch, r) := scanBody ds inrange; (c :: d :: ch, r)
      | [] => ([c], [])
    else if c = '[' then let (ch, r) := scanBody cs true; (c :: ch, r)
    else if c = ']' then let (ch, r) := scanBody cs false; (c :: ch, r)
    else if c = '*' then
      if inrange then let (ch, r) := scanBody cs inrange; (c :: ch, r)
      else ([], c :: cs)
    else let (ch, r) := scanBody cs inrange; (c :: ch, r)

/-- Model of Go `scanChunk`: `(star, chunk, rest)`. -/
def scanChunk (pattern : List Char) : Bool × List Char × List Char :=
  let (star, p) := stripStars pattern
  let (chunk, rest) := scanBody p false
  (star, chunk, rest)

/-- Model of Go `getEsc`: read one (possibly escaped) class character. -/
def getEsc : List Char → Except Unit (Char × List Char)
  | [] => .error ()
  | c :: cs =>
    if c = '-' ∨ c = ']' then .error ()
    else if c = '\\' then
      match cs with
      | [] => .error ()
      | d :: ds => if ds.isEmpty then .error () else .ok (d, ds)
    else if cs.isEmpty then .error () else .ok (c, cs)

/-- The range-parsing loop inside the `'['` case of Go `matchChunk`. -/
def rangeLoopF : Nat → List Char → Char → Bool → Nat → Except Unit (List Char × Bool)
  | 0, _, _, _, _ => .error ()
  | fuel + 1, chunk, r, matched, nrange =>
    match chunk with
    | ']' :: rest =>
      if 0 < nrange then .ok (rest, matched)
      else .error ()
    | _ =>
      match getEsc chunk with
      | .error _ => .error ()
      | .ok (lo, c1) =>
        match c1 with
        | '-' :: tl =>
          match getEsc tl with
          | .error _ => .error ()
          | .ok (hi, c2) =>
            rangeLoopF fuel c2 r (matched || (decide (lo ≤ r) && decide (r ≤ hi))) (nrange + 1)
        | _ =>
          rangeLoopF fuel c1 r (matched || (decide (lo ≤ r) && decide (r ≤ lo))) (nrange + 1)

/-- Model of Go `matchChunk`.  `.ok (some t)` is Go's `(t, true, nil)`,
`.ok none` is `("", false, nil)` (mismatch), `.error` is a bad pattern. -/
def matchChunkF : Nat → List Char → List Char → Bool → Except Unit (Option (List Char))
  | 0, _, _, _ => .error ()
  | fuel + 1, chunk, s, failed0 =>
    match chunk with
    | [] => if failed0 then .ok none else .ok (some s)
    | c :: rest =>
      let failed := failed0 || s.isEmpty
      if c = '[' then
        let r := if failed then Char.ofNat 0 else s.headD (Char.ofNat 0)
        let s1 := if failed then s else s.tail
        let nr := match rest with
          | '^' :: tl => (true, tl)
          | _ => (false, rest)
        match rangeLoopF (nr.snd.length + 1) nr.snd r false 0 with
        | .error _ => .error ()
        | .ok (chunk2, m) => matchChunkF fuel chunk2 s1 (failed || (m == nr.fst))
      else if c = '?' then
        if failed then matchChunkF fuel rest s failed
        else
          match s with
          | [] => matchChunkF fuel rest s failed
          | ch :: stl => matchChunkF fuel rest stl (ch == '/')
      else if c = '\\' then
        match rest with
        | [] => .error ()
        | d :: rest2 =>
          if failed then matchChunkF fuel rest2 s failed
          else
            match s with
            | [] => matchChunkF fuel rest2 s failed
            | ch :: stl => matchChunkF fuel rest2 stl (!(d == ch))
      else
        if failed then matchChunkF fuel rest s failed
        else
          match s with
          | [] => matchChunkF fuel rest s failed
          | ch :: stl => matchChunkF fuel rest stl (!(c == ch))

/-- Model of Go `matchChunk` with sufficient fuel (each step eats ≥ 1 chunk char). -/
def matchChunk (chunk s : List Char) : Except Unit (Option (List Char)) :=
  matchChunkF (chunk.length + 1) chunk s false

/-- The post-failure loop of Go `Match` that checks the rest of the pattern is
syntactically valid before returning `false`. -/
def validateRestF : Nat → List Char → Except Unit Bool
  | 0, _ => .error ()
  | fuel + 1, p =>
    match p with
    | [] => .ok false
    | _ :: _ =>
      let (_, chunk, rest) := scanChunk p
      match matchChunk chunk [] with
      | .error _ => .error ()
      | .ok _ => validateRestF fuel rest

mutual

/-- The `Pattern` loop of Go `path.Match`. -/
def matchOuterF : Nat → List Char → List Char → Except Unit Bool
  | 0, _, _ => .error ()
  | fuel + 1, pattern, name =>
    match pattern with
    | [] => .ok name.isEmpty
    | _ :: _ =>
      let (star, chunk, rest) := scanChunk pattern
      if star && chunk.isEmpty then .ok (!(name.contains '/'))
      else
        match matchChunk chunk name with
        | .error _ => .error ()
        | .ok (some t) =>
          if t.isEmpty || !rest.isEmpty then matchOuterF fuel rest t
          else if star then starLoopF fuel chunk rest name
          else validateRestF (rest.length + 1) rest
        | .ok none =>
          if star then starLoopF fuel chunk rest name
          else validateRestF (rest.length + 1) rest

/-- The star-skipping loop of Go `path.Match` (skip `i+1` name characters). -/
def starLoopF : Nat → List Char → List Char → List Char → Except Unit Bool
  | 0, _, _, _ => .error ()
  | fuel + 1, chunk, rest, name =>
    match name with
    | [] => validateRestF (rest.length + 1) rest
    | c :: cs =>
      if c = '/' then validateRestF (rest.length + 1) rest
      else
        match matchChunk chunk cs with
        | .error _ => .error ()
        | .ok (some t) =>
          if rest.isEmpty && !t.isEmpty then starLoopF fuel chunk rest cs
          else matchOuterF fuel rest t
        | .ok none => starLoopF fuel chunk rest cs

end

/-- Model of Go `path.Match pattern name`.  `.error` is `ErrBadPattern`. -/
def pathMatchL (pattern name : List Char) : Except Unit Bool :=
  matchOuterF (2 * (pattern.length + name.length) + 2) pattern name

/-- `path.Match` on strings. -/
def pathMatch (pattern name : String) : Except Unit Bool :=
  pathMatchL pattern.data name.data

/-! ## Config and the exclusion filter (`pkg/config`, `exclude.go`) -/

/-- The slice of `config.Config` consumed by the components under study. -/
structure Config where
  ExcludeTables : List String := []
  ExcludeDatabases : List String := []
  MinTableSizeMB : Rat := 1
  MinQueryCount : Nat := 0
  ClickHouseDSN : String := ""
  ScoringAlgorithm : String := "simple"

/-- Go `normalizePattern`: lower-case the trimmed value. -/
def normalizePattern (value : String) : String := strLower (strTrim value)

/-- Go `normalizePatterns`: normalize each pattern, dropping empties. -/
def normalizePatterns (values : List String) : List String :=
  (values.map normalizePattern).filter (fun p => !p.isEmpty)

/-- Go `Config.Normalize` (nil receiver impossible in the model). -/
def Config.Normalize (c : Config) : Config :=
  { c with
    ExcludeTables := normalizePatterns c.ExcludeTables
    ExcludeDatabases := normalizePatterns c.ExcludeDatabases }

/-- Go `patternMatches`: normalize both sides, glob-match, and fall back to an
exact comparison when `path.Match` reports a bad pattern. -/
def patternMatches (pattern value : String) : Bool :=
  let np := normalizePattern pattern
  let nv := normalizePattern value
  if np.isEmpty || nv.isEmpty then false
  else
    match pathMatch np nv with
    | .ok matched => matched
    | .error _ => np == nv

/-- Go `splitTableName`: split at the first dot; no dot means empty database. -/
def splitTableName (fullName : String) : String × String :=
  match splitFirstDot fullName.data with
  | none => ("", strTrim fullName)
  | some (a, b) => (strTrim ⟨a⟩, strTrim ⟨b⟩)

/-- Go `Config.IsDatabaseExcluded`. -/
def Config.IsDatabaseExcluded (c : Config) (database : String) : Bool :=
  if c.ExcludeDatabases.isEmpty then false
  else
    let value := normalizePattern database
    if value.isEmpty then false
    else c.ExcludeDatabases.any (fun pattern => patternMatches pattern value)

/-- Go `Config.IsTableExcluded`. -/
def Config.IsTableExcluded (c : Config) (fullName : String) : Bool :=
  let normalized := normalizePattern fullName
  if normalized.isEmpty then false
  else
    let p := splitTableName normalized
    if !p.fst.isEmpty && c.IsDatabaseExcluded p.fst then true
    else if c.ExcludeTables.isEmpty then false
    else
      c.ExcludeTables.any (fun pattern =>
        patternMatches pattern normalized ||
        (!p.snd.isEmpty && patternMatches pattern p.snd))

/-! ## Data model (`internal/models`)

`time.Time` is unix seconds (`Int`, zero value `0`); `t1.After t2` is `t2 < t1`
and `t1.Before t2` is `t1 < t2`. -/

/-- One point of a table's hour-bucketed activity series. -/
structure TimeSeriesPoint where
  Timestamp : Int := 0
  Value : Nat := 0
deriving DecidableEq, Repr

/-- `models.Table`. -/
structure Table where
  Name : String := ""
  Database : String := ""
  FullName : String := ""
  Reads : Nat := 0
  Writes : Nat := 0
  LastAccess : Int := 0
  FirstSeen : Int := 0
  Sparkline : List TimeSeriesPoint := []
  Score : Rat := 0
  Category : String := ""
  IsMV : Bool := false
  MVDependency : List String := []
  Engine : String := ""
  IsReplicated : Bool := false
  TotalBytes : Nat := 0
  TotalRows : Nat := 0
  CreateTime : Int := 0
  ZeroUsage : Bool := false
deriving DecidableEq, Repr

/-- `models.Service`. -/
structure Service where
  IP : String := ""
  K8sService : String := ""
  K8sNamespace : String := ""
  K8sPod : String := ""
  TablesUsed : List String := []
  QueryCount : Nat := 0
  LastSeen : Int := 0
deriving DecidableEq, Repr

/-- `models.Edge`. -/
structure Edge where
  ServiceIP : String := ""
  ServiceName : String := ""
  TableName : String := ""
  Reads : Nat := 0
  Writes : Nat := 0
  LastActivity : Int := 0
deriving DecidableEq, Repr

/-- `models.Anomaly` (`DetectedAt` as unix seconds; the Go field `Type` is
spelled `AType` because `Type` is reserved in Lean). -/
structure Anomaly where
  AType : String := ""
  Description : String := ""
  Severity : String := ""
  AffectedTable : String := ""
  AffectedService : String := ""
  DetectedAt : Int := 0
deriving DecidableEq, Repr

/-- `models.QueryLogEntry` (the Go field `Type` is spelled `EntryType`). -/
structure QueryLogEntry where
  QueryID : String := ""
  EntryType : String := ""
  EventTime : Int := 0
  QueryKind : String := ""
  Query : String := ""
  User : String := ""
  ClientIP : String := ""
  ReadRows : Nat := 0
  WrittenRows : Nat := 0
  DurationMs : Nat := 0
  Exception : String := ""
  Tables : List String := []
deriving DecidableEq, Repr

/-- `models.TableRecommendation`. -/
structure TableRecommendation where
  Name : String := ""
  Database : String := ""
  Engine : String := ""
  IsReplicated : Bool := false
  SizeMB : Rat := 0
  Rows : Nat := 0
deriving DecidableEq, Repr

/-- `models.CleanupRecommendations` (the five buckets). -/
structure CleanupRecommendations where
  ZeroUsageNonReplicated : List TableRecommendation := []
  ZeroUsageReplicated : List TableRecommendation := []
  SafeToDrop : List String := []
  LikelySafe : List String := []
  Keep : List String := []
deriving DecidableEq, Repr

/-- `models.Metadata`. -/
structure Metadata where
  GeneratedAt : Int := 0
  LookbackDays : Int := 0
  ClickHouseHost : String := ""
  TotalQueriesAnalyzed : Nat := 0
  AnalysisDuration : String := ""
  Version : String := ""
  K8sResolutionEnabled : Bool := false
deriving DecidableEq, Repr

/-- `models.Report` (the `Timestamp` string is kept as the raw unix value; its
RFC3339 rendering is presentation only). -/
structure Report where
  Tool : String := ""
  Version : String := ""
  Timestamp : Int := 0
  Metadata : Metadata := {}
  Tables : List Table := []
  Services : List Service := []
  Edges : List Edge := []
  Anomalies : List Anomaly := []
  CleanupRecommendations : CleanupRecommendations := {}
deriving DecidableEq, Repr

/-! ## Association lists standing for Go maps -/

/-- Lookup in an association list (Go map read). -/
def alookup {α : Type} : List (String × α) → String → Option α
  | [], _ => none
  | (k, v) :: rest, key => if k = key then some v else alookup rest key

/-- Go map write: overwrite the binding if the key exists, append otherwise. -/
def aset {α : Type} : List (String × α) → String → α → List (String × α)
  | [], key, v => [(key, v)]
  | (k, w) :: rest, key, v =>
    if k = key then (k, v) :: rest else (k, w) :: aset rest key v

/-! ## Analyzer (`internal/analyzer`) -/

/-- Go `isReadQuery` (`table_analyzer.go`). -/
def isReadQuery (kind : String) : Bool :=
  let k := strUpper kind
  k == "SELECT" || strStartsWith k "SELECT"

/-- Go `isWriteQuery` (`table_analyzer.go`): exact match against the six write
keywords, prefix match only for `INSERT` and `CREATE`. -/
def isWriteQuery (kind : String) : Bool :=
  let k := strUpper kind
  k == "INSERT" || k == "CREATE" || k == "DROP" ||
  k == "ALTER" || k == "UPDATE" || k == "DELETE" ||
  strStartsWith k "INSERT" || strStartsWith k "CREATE"

/-- The fresh `models.Table` created by `buildTableModel` on first sight. -/
def newLogTable (tableName : String) (eventTime : Int) : Table :=
  let parts := tableName.splitOn "."
  let database := if parts.length = 2 then parts.headD "" else ""
  let name := if parts.length = 2 then (parts.drop 1).headD "" else tableName
  { Name := name
    Database := database
    FullName := tableName
    FirstSeen := eventTime
    Sparkline := [] }

/-- The body of `buildTableModel`'s inner loop for one table reference. -/
def processTableName (cfg : Config) (e : QueryLogEntry)
    (m : List (String × Table)) (tableName : String) : List (String × Table) :=
  if tableName = "" then m
  else if cfg.IsTableExcluded tableName then m
  else
    let t0 := match alookup m tableName with
      | some t => t
      | none => newLogTable tableName e.EventTime
    let t1 :=
      if isReadQuery e.QueryKind then { t0 with Reads := t0.Reads + e.ReadRows }
      else if isWriteQuery e.QueryKind then { t0 with Writes := t0.Writes + e.WrittenRows }
      else t0
    let t2 := if t1.LastAccess < e.EventTime then { t1 with LastAccess := e.EventTime } else t1
    let t3 := if e.EventTime < t2.FirstSeen then { t2 with FirstSeen := e.EventTime } else t2
    aset m tableName t3

/-- One entry of `buildTableModel`'s outer loop. -/
def processEntry (cfg : Config) (m : List (String × Table)) (e : QueryLogEntry) :
    List (String × Table) :=
  e.Tables.foldl (processTableName cfg e) m

/-- Go `Analyzer.buildTableModel`, folding entries into the (initially empty)
table map. -/
def buildTableModel (cfg : Config) (entries : List QueryLogEntry) :
    List (String × Table) :=
  entries.foldl (processEntry cfg) []

/-- The display name used by `buildEdges` for a client. -/
def edgeServiceName (services : List (String × Service)) (clientIP : String) : String :=
  match alookup services clientIP with
  | some s => if s.K8sService ≠ "" then s.K8sService else clientIP
  | none => clientIP

/-- Key of the edge map: `(client address, table name)` rendered as one string
(`Go` uses a struct key; the pairing is injective because we keep the pair). -/
def edgeUpsert (m : List ((String × String) × Edge)) (key : String × String) (f : Edge → Edge)
    (fresh : Edge) : List ((String × String) × Edge) :=
  match m with
  | [] => [(key, f fresh)]
  | (k, e) :: rest =>
    if k = key then (k, f e) :: rest else (k, e) :: edgeUpsert rest key f fresh

/-- The inner loop of `buildEdges` over one entry's table references.
Note the Go source applies no exclusion filter here. -/
def processEdgeTables (e : QueryLogEntry) (serviceName : String)
    (m : List ((String × String) × Edge)) : List ((String × String) × Edge) :=
  e.Tables.foldl
    (fun m tableName =>
      if tableName = "" then m
      else
        let fresh : Edge :=
          { ServiceIP := e.ClientIP
            ServiceName := serviceName
            TableName := tableName
            LastActivity := e.EventTime }
        edgeUpsert m (e.ClientIP, tableName)
          (fun edge =>
            let e1 :=
              if isReadQuery e.QueryKind then { edge with Reads := edge.Reads + e.ReadRows }
              else if isWriteQuery e.QueryKind then
                { edge with Writes := edge.Writes + e.WrittenRows }
              else edge
            if e1.LastActivity < e.EventTime then { e1 with LastActivity := e.EventTime } else e1)
          fresh)
    m

/-- Go `Analyzer.buildEdges` over a service map and the log entries. -/
def buildEdges (services : List (String × Service)) (entries : List QueryLogEntry) :
    List Edge :=
  let edgeMap := entries.foldl
    (fun m e =>
      if e.ClientIP = "" then m
      else processEdgeTables e (edgeServiceName services e.ClientIP) m)
    []
  edgeMap.map Prod.snd

/-! ## Scorer safety gate (`internal/scorer/recommendations.go`) -/

/-- Go `isSystemTable`. -/
def isSystemTable (tableName : String) : Bool :=
  let lower := strLower tableName
  strStartsWith lower "system." || strStartsWith lower "information_schema."

/-- Go `isSafeToRecommend` (`now` in unix seconds; `daysSinceWrite` is
`now.Sub(LastAccess).Hours() / 24`). -/
def isSafeToRecommend (tableName : String) (t : Table) (now : Int) : Bool :=
  if isSystemTable tableName then false
  else
    let daysSinceWrite : Rat := ((now - t.LastAccess : Int) : Rat) / 86400
    if 0 < t.Writes ∧ daysSinceWrite < 7 then false
    else if t.IsMV then false
    else true

/-- Go `SimpleScorer.Categorize`. -/
def categorize (score : Rat) : String :=
  if score ≥ 7 / 10 then "active"
  else if score ≥ 3 / 10 then "suspect"
  else "unused"

/-- Table size in megabytes used by the zero-usage threshold. -/
def tableSizeMB (t : Table) : Rat := (t.TotalBytes : Rat) / (1024 * 1024)

/-- Modelled from the spec: the `min_query_count` denominator — "the sum of its
activity series when present, else `reads+writes`" (§4.9 step 3, design note on
the `min_query_count` denominator). -/
def tableQueryCount (t : Table) : Nat :=
  if t.Sparkline.isEmpty then t.Reads + t.Writes
  else (t.Sparkline.map TimeSeriesPoint.Value).sum

/-- The recommendation entry built for a zero-usage table (carrying the full
table metadata, as `models.TableRecommendation` and the test expectations
record: `Name` is the map key `database.table`). -/
def mkTableRec (tableName : String) (t : Table) : TableRecommendation :=
  { Name := tableName
    Database := t.Database
    Engine := t.Engine
    IsReplicated := t.IsReplicated
    SizeMB := tableSizeMB t
    Rows := t.TotalRows }

/-- The bucket a single table is routed to by the recommendation pipeline. -/
inductive RecTarget where
  | zuNonRep
  | zuRep
  | safeToDrop
  | likelySafe
  | keep
  | skipped
deriving DecidableEq, Repr

/-- Modelled from the spec: the per-table routing of `GenerateRecommendations`
(§4.9 "Recommendation pipeline"; the implementation with the zero-usage branch
and the minimum-query floor is absent from the retrieved sources — only its
tests, the `CleanupRecommendations` declaration and the config flags are
present).  Order of stages as specified: (1) zero-usage branch — if the size
threshold and score/materialized-view/dependency conditions hold the table
goes to a zero-usage bucket by replication flag and skips every other bucket,
and zero-usage tables below the threshold are silently skipped; (2) safety
gate (`isSafeToRecommend`, from the source) — failures go to `keep`;
(3) minimum-query floor — `likely-safe`; (4) category-to-bucket mapping. -/
def recTarget (scoreFn : Table → Rat) (now : Int) (cfg : Config)
    (tableName : String) (t : Table) : RecTarget :=
  if t.ZeroUsage then
    if tableSizeMB t ≥ cfg.MinTableSizeMB ∧ scoreFn t < 3 / 10 ∧
        t.IsMV = false ∧ t.MVDependency = [] then
      if t.IsReplicated then .zuRep else .zuNonRep
    else .skipped
  else if isSafeToRecommend tableName t now = false then .keep
  else if 0 < cfg.MinQueryCount ∧ tableQueryCount t < cfg.MinQueryCount then .likelySafe
  else
    let c := categorize (scoreFn t)
    if c == "active" then .keep
    else if c == "suspect" then .likelySafe
    else .safeToDrop

/-- Insert into a list kept sorted by `SizeMB` descending. -/
def insertBySizeDesc (r : TableRecommendation) :
    List TableRecommendation → List TableRecommendation
  | [] => [r]
  | x :: xs => if x.SizeMB ≤ r.SizeMB then r :: x :: xs else x :: insertBySizeDesc r xs

/-- Sort recommendations by `SizeMB` descending (spec: "Total ordering within
the replicated/non-replicated zero-usage lists is by size-MB descending"). -/
def sortBySizeDesc (l : List TableRecommendation) : List TableRecommendation :=
  l.foldr insertBySizeDesc []

/-- Modelled from the spec: `GenerateRecommendations` assembling the five
buckets from the per-table routing (one bucket per table). -/
def generateRecommendations (scoreFn : Table → Rat) (now : Int) (cfg : Config)
    (tables : List (String × Table)) : CleanupRecommendations :=
  { ZeroUsageNonReplicated := sortBySizeDesc (tables.filterMap (fun p =>
      if recTarget scoreFn now cfg p.fst p.snd = .zuNonRep then
        some (mkTableRec p.fst p.snd) else none))
    ZeroUsageReplicated := sortBySizeDesc (tables.filterMap (fun p =>
      if recTarget scoreFn now cfg p.fst p.snd = .zuRep then
        some (mkTableRec p.fst p.snd) else none))
    SafeToDrop := tables.filterMap (fun p =>
      if recTarget scoreFn now cfg p.fst p.snd = .safeToDrop then some p.fst else none)
    LikelySafe := tables.filterMap (fun p =>
      if recTarget scoreFn now cfg p.fst p.snd = .likelySafe then some p.fst else none)
    Keep := tables.filterMap (fun p =>
      if recTarget scoreFn now cfg p.fst p.snd = .keep then some p.fst else none) }

/-! ## Baseline engine (`internal/baseline/baseline.go`) -/

/-- Model of `baseline.hash`: the `0x1f`-joined canonical tuple.  The Go code
additionally applies SHA-256 and hex-encodes the digest; every claim below
depends only on the fingerprint being a deterministic function of the tuple,
so the hash primitive is modelled as the identity on the canonical string. -/
def hashFP (parts : List String) : String := String.intercalate "\x1f" parts

/-- Go `FingerprintAnomaly`. -/
def FingerprintAnomaly (a : Anomaly) : String :=
  hashFP ["anomaly", a.AType, a.Severity, a.AffectedTable, a.AffectedService]

/-- Go `FingerprintTableRecommendation`. -/
def FingerprintTableRecommendation (category : String) (rec : TableRecommendation) : String :=
  hashFP ["recommendation", category, rec.Name, rec.Database]

/-- Go `fingerprintTableName`. -/
def fingerprintTableName (category tableName : String) : String :=
  hashFP ["recommendation", category, tableName]

/-- Membership test of the fingerprint set (Go `map[string]struct{}` lookup). -/
def slContains : List String → String → Bool
  | [], _ => false
  | x :: xs, a => x == a || slContains xs a

/-- Go map-set insertion (value already present is a no-op). -/
def setInsert (s : List String) (a : String) : List String :=
  if slContains s a then s else s ++ [a]

/-- Insertion into a sorted string list. -/
def sortStrInsert (a : String) : List String → List String
  | [] => [a]
  | x :: xs => if a ≤ x then a :: x :: xs else x :: sortStrInsert a xs

/-- Go `Sorted` on a set materialized as a duplicate-free list. -/
def sortStr (l : List String) : List String := l.foldr sortStrInsert []

/-- Go `CountFindings`: anomalies plus the four non-`keep` buckets. -/
def CountFindings (r : Report) : Nat :=
  r.Anomalies.length +
  r.CleanupRecommendations.ZeroUsageNonReplicated.length +
  r.CleanupRecommendations.ZeroUsageReplicated.length +
  r.CleanupRecommendations.SafeToDrop.length +
  r.CleanupRecommendations.LikelySafe.length

/-- Go `CollectFingerprints`: one fingerprint per finding, deduplicated and
sorted. -/
def CollectFingerprints (r : Report) : List String :=
  let fps :=
    r.Anomalies.map FingerprintAnomaly ++
    r.CleanupRecommendations.ZeroUsageNonReplicated.map
      (FingerprintTableRecommendation "zero_usage_non_replicated") ++
    r.CleanupRecommendations.ZeroUsageReplicated.map
      (FingerprintTableRecommendation "zero_usage_replicated") ++
    r.CleanupRecommendations.SafeToDrop.map (fingerprintTableName "safe_to_drop") ++
    r.CleanupRecommendations.LikelySafe.map (fingerprintTableName "likely_safe")
  sortStr (fps.foldl setInsert [])

/-- Go `SuppressKnown`: remove the findings whose fingerprint is in `known`;
returns the filtered report with `(suppressed, remaining)`. -/
def SuppressKnown (r : Report) (known : List String) : Report × Nat × Nat :=
  if known.isEmpty then (r, 0, CountFindings r)
  else
    let anomalies := r.Anomalies.filter
      (fun a => !(slContains known (FingerprintAnomaly a)))
    let zuN := r.CleanupRecommendations.ZeroUsageNonReplicated.filter
      (fun rec => !(slContains known
        (FingerprintTableRecommendation "zero_usage_non_replicated" rec)))
    let zuR := r.CleanupRecommendations.ZeroUsageReplicated.filter
      (fun rec => !(slContains known
        (FingerprintTableRecommendation "zero_usage_replicated" rec)))
    let std := r.CleanupRecommendations.SafeToDrop.filter
      (fun n => !(slContains known (fingerprintTableName "safe_to_drop" n)))
    let likely := r.CleanupRecommendations.LikelySafe.filter
      (fun n => !(slContains known (fingerprintTableName "likely_safe" n)))
    let suppressed :=
      (r.Anomalies.length - anomalies.length) +
      (r.CleanupRecommendations.ZeroUsageNonReplicated.length - zuN.length) +
      (r.CleanupRecommendations.ZeroUsageReplicated.length - zuR.length) +
      (r.CleanupRecommendations.SafeToDrop.length - std.length) +
      (r.CleanupRecommendations.LikelySafe.length - likely.length)
    let out := { r with
      Anomalies := anomalies
      CleanupRecommendations := { r.CleanupRecommendations with
        ZeroUsageNonReplicated := zuN
        ZeroUsageReplicated := zuR
        SafeToDrop := std
        LikelySafe := likely } }
    (out, suppressed, CountFindings out)

/-! ## CLI exit classification (`cmd/clickspectre`) -/

/-- The error value reaching `main`'s `classifyError`: a `FindingsError`, an
`os.IsNotExist` error, or any other error carrying only its message. -/
inductive CLIError where
  | findings (count : Nat)
  | notExist
  | generic (msg : String)
deriving DecidableEq, Repr

/-- Go `classifyError` (`findings` wins first, then `os.IsNotExist`, then the
message-substring families). -/
def classifyError : Option CLIError → Nat
  | none => 0
  | some (.findings _) => 6
  | some .notExist => 3
  | some (.generic msg) =>
    let m := strLower msg
    if strContains m "not a directory" || strContains m "does not exist" ||
        strContains m "no such file" then 3
    else if strContains m "dial" || strContains m "connection refused" ||
        strContains m "i/o timeout" || strContains m "network is unreachable" then 5
    else if strContains m "required" || strContains m "invalid" ||
        strContains m "must be" || strContains m "expected" then 2
    else 1

/-- Go `countFindings` in `cmd/clickspectre` (same sum as
`baseline.CountFindings`: anomalies plus the four non-`keep` buckets). -/
def cmdCountFindings (r : Report) : Nat :=
  (r.CleanupRecommendations.ZeroUsageNonReplicated.length +
   r.CleanupRecommendations.ZeroUsageReplicated.length +
   r.CleanupRecommendations.SafeToDrop.length +
   r.CleanupRecommendations.LikelySafe.length) +
  r.Anomalies.length

/-- The tail of `runAnalyze` after baseline suppression: return a
`FindingsError` exactly when `countFindings` is positive. -/
def analyzeFindingsErr (r : Report) : Option CLIError :=
  if 0 < cmdCountFindings r then some (.findings (cmdCountFindings r)) else none

/-- The process exit signal produced for the post-suppression report: `main`
classifies a returned error, and a `nil` return exits 0. -/
def analyzeExitCode (r : Report) : Nat := classifyError (analyzeFindingsErr r)

/-! ## Model of `net/url` (the fragment used by `extractHost`)

A model of `url.Parse` covering scheme detection, the authority/host split,
userinfo stripping, bracketed hosts and port validation, and the error cases
relevant to DSN strings (control characters, `missing protocol scheme`,
a colon in the first segment of a scheme-less relative path, a missing `]`,
an invalid port).  Percent-escapes and userinfo validation are passed through
verbatim rather than decoded. -/

/-- A control byte in the sense of `stringContainsCTLByte`. -/
def isCTL (c : Char) : Bool := c < ' ' || c == '\x7f'

/-- Split before the first occurrence of `ch`: `(before, some after)` when
found, `(l, none)` otherwise. -/
def cutFirst (l : List Char) (ch : Char) : List Char × Option (List Char) :=
  match l with
  | [] => ([], none)
  | c :: cs =>
    if c = ch then ([], some cs)
    else
      match cutFirst cs ch with
      | (a, r) => (c :: a, r)

/-- Split at the last occurrence of `ch` (`strings.LastIndex`):
`(before, after)` without the separator. -/
def splitLastChar (l : List Char) (ch : Char) : Option (List Char × List Char) :=
  match cutFirst l.reverse ch with
  | (_, none) => none
  | (revAfter, some revBefore) => some (revBefore.reverse, revAfter.reverse)

/-- Go `getScheme`: returns `(scheme, rest)`; a leading `:` is the
`missing protocol scheme` error. -/
def getSchemeAux (orig : List Char) : List Char → Nat → Except String (String × List Char)
  | [], _ => .ok ("", orig)
  | c :: cs, i =>
    if ('a' ≤ c ∧ c ≤ 'z') ∨ ('A' ≤ c ∧ c ≤ 'Z') then getSchemeAux orig cs (i + 1)
    else if ('0' ≤ c ∧ c ≤ '9') ∨ c = '+' ∨ c = '-' ∨ c = '.' then
      if i = 0 then .ok ("", orig) else getSchemeAux orig cs (i + 1)
    else if c = ':' then
      if i = 0 then .error "missing protocol scheme"
      else .ok (⟨orig.take i⟩, orig.drop (i + 1))
    else .ok ("", orig)

/-- Go `validOptionalPort`. -/
def validOptionalPort (p : List Char) : Bool :=
  match p with
  | [] => true
  | c :: rest => c = ':' && rest.all (fun d => decide ('0' ≤ d ∧ d ≤ '9'))

/-- Go `parseHost` (without percent-decoding). -/
def parseHostGo (host : List Char) : Except String String :=
  if listStartsWith host ['['] then
    match splitLastChar host ']' with
    | none => .error "missing right bracket in host"
    | some (_, after) =>
      if validOptionalPort after then .ok ⟨host⟩ else .error "invalid port after host"
  else
    match splitLastChar host ':' with
    | none => .ok ⟨host⟩
    | some (_, after) =>
      if validOptionalPort (':' :: after) then .ok ⟨host⟩ else .error "invalid port after host"

/-- Go `parseAuthority`: strip the userinfo at the last `@` and parse the host
(userinfo character validation is not modelled). -/
def parseAuthority (authority : List Char) : Except String String :=
  match splitLastChar authority '@' with
  | none => parseHostGo authority
  | some (_, hostPart) => parseHostGo hostPart

/-- The `url.URL` fields `extractHost` consumes. -/
structure GoURL where
  scheme : String := ""
  host : String := ""
deriving DecidableEq, Repr

/-- Model of `url.Parse` (fragment stripped first, then scheme, then query;
a rootless path under a non-empty scheme is opaque with an empty host). -/
def goURLParse (rawURL : String) : Except String GoURL :=
  if rawURL.data.any isCTL then .error "invalid control character in URL"
  else
    let noFrag : List Char := (cutFirst rawURL.data '#').fst
    match getSchemeAux noFrag noFrag 0 with
    | .error e => .error e
    | .ok (scheme0, rest0) =>
      let scheme := strLower scheme0
      let rest := (cutFirst rest0 '?').fst
      if !listStartsWith rest ['/'] then
        if scheme ≠ "" then .ok { scheme := scheme, host := "" }
        else if ((cutFirst rest '/').fst).contains ':' then
          .error "first path segment in URL cannot contain colon"
        else .ok { scheme := scheme, host := "" }
      else if listStartsWith rest ['/', '/'] then
        let authority := (cutFirst (rest.drop 2) '/').fst
        match parseAuthority authority with
        | .error e => .error e
        | .ok host => .ok { scheme := scheme, host := host }
      else .ok { scheme := scheme, host := "" }

/-- Go `URL.Hostname` via `splitHostPort`: strip a valid `:port` suffix and
surrounding brackets. -/
def urlHostname (host : String) : String :=
  let h := host.data
  let h1 := match splitLastChar h ':' with
    | some (before, after) => if validOptionalPort (':' :: after) then before else h
    | none => h
  let h2 :=
    if listStartsWith h1 ['['] ∧ h1.getLast? = some ']' then (h1.drop 1).dropLast
    else h1
  ⟨h2⟩

/-- Go `extractHost` (the `analyze` command bundled with the baseline/exit-code
feature set): URL-parse the DSN and fall back to `"unknown"` on an empty DSN,
a parse error, or an empty hostname. -/
def extractHost (dsn : String) : String :=
  if dsn = "" then "unknown"
  else
    match goURLParse dsn with
    | .error _ => "unknown"
    | .ok u =>
      let host := urlHostname u.host
      if host ≠ "" then host else "unknown"

/-- Go `buildReport`: assemble the report value; the host metadata field is
`extractHost` of the configured DSN. -/
def buildReport (cfg : Config) (version : String) (generatedAt : Int)
    (lookbackDays : Int) (entries : List QueryLogEntry) (tables : List Table)
    (services : List Service) (edges : List Edge) (anomalies : List Anomaly)
    (recommendations : CleanupRecommendations) (durationStr : String)
    (k8s : Bool) : Report :=
  { Tool := "clickspectre"
    Version := version
    Timestamp := generatedAt
    Metadata :=
      { GeneratedAt := generatedAt
        LookbackDays := lookbackDays
        ClickHouseHost := extractHost cfg.ClickHouseDSN
        TotalQueriesAnalyzed := entries.length
        AnalysisDuration := durationStr
        Version := version
        K8sResolutionEnabled := k8s }
    Tables := tables
    Services := services
    Edges := edges
    Anomalies := anomalies
    CleanupRecommendations := recommendations }

/-! ## Retry helper (`internal/collector/retry.go`)

The context is modelled as a state `(err, cause)` that is constant over one
`executeWithRetry` call; `fn` is the per-attempt outcome (`none` = success).
`sleepWithContext` on a non-cancelled constant context sleeps fully and
returns `nil`, so the sleep-failure branch is unreachable in the model. -/

/-- The Go error values flowing through the retry helper. -/
inductive GoErr where
  | canceled
  | deadlineExceeded
  | chException (code : Nat) (msg : String)
  | netTimeoutErr (timeout : Bool) (msg : String)
  | textual (msg : String)
deriving DecidableEq, Repr

/-- `err.Error()`. -/
def goErrText : GoErr → String
  | .canceled => "context canceled"
  | .deadlineExceeded => "context deadline exceeded"
  | .chException _ msg => msg
  | .netTimeoutErr _ msg => msg
  | .textual msg => msg

/-- The `authErrorSubstrings` table. -/
def authErrorSubstrings : List String :=
  ["authentication failed", "authentication error", "invalid credentials",
   "invalid password", "password is incorrect", "wrong password",
   "unknown user", "unauthorized", "access denied", "sqlstate[28000]",
   "sqlstate 28000", "code: 193", "code: 194", "code: 497", "code: 516"]

/-- The `retryableErrorSubstrings` table. -/
def retryableErrorSubstrings : List String :=
  ["timeout", "i/o timeout", "tls handshake timeout", "eof", "unexpected eof",
   "broken pipe", "connection reset", "connection refused",
   "connection aborted", "connection closed",
   "use of closed network connection", "network is unreachable",
   "no route to host", "no such host"]

/-- Go `isAuthError`: ClickHouse auth exception codes, else marker scan of the
lower-cased message. -/
def isAuthError (e : GoErr) : Bool :=
  let textHit := authErrorSubstrings.any
    (fun marker => strContains (strLower (goErrText e)) marker)
  match e with
  | .chException code _ =>
    if code = 193 ∨ code = 194 ∨ code = 497 ∨ code = 516 then true else textHit
  | _ => textHit

/-- Go `isRetryableError`: cancellation never, deadline always, `net.Error`
by its `Timeout()`, else marker scan of the lower-cased message. -/
def isRetryableError (e : GoErr) : Bool :=
  match e with
  | .canceled => false
  | .deadlineExceeded => true
  | .netTimeoutErr timeout _ => timeout
  | _ => retryableErrorSubstrings.any
      (fun marker => strContains (strLower (goErrText e)) marker)

/-- A context snapshot: `ctx.Err()` and `context.Cause(ctx)`. -/
structure CtxState where
  err : Option GoErr := none
  cause : Option GoErr := none
deriving DecidableEq, Repr

/-- Go `contextError`: surface the cause when it is more specific than a bare
cancellation. -/
def contextError (ctx : CtxState) : Option GoErr :=
  match ctx.err with
  | none => none
  | some e =>
    match ctx.cause with
    | some c => if c = .canceled then some e else some c
    | none => some e

/-- The context state after the timer installed by `withTotalTimeoutContext`
fires: `cancelCause(context.DeadlineExceeded)` makes `ctx.Err()` report
`context.Canceled` while `context.Cause` is the deadline. -/
def firedTimeoutCtx : CtxState :=
  { err := some .canceled, cause := some .deadlineExceeded }

/-- `retryConfig` (durations in milliseconds). -/
structure RetryConfig where
  maxAttempts : Nat := 3
  initialBackoff : Nat := 100
  maxBackoff : Nat := 2000
deriving DecidableEq, Repr

/-- Go `retryConfig.normalized` (`<= 0` collapses to `= 0` under `Nat`). -/
def RetryConfig.normalized (cfg : RetryConfig) : RetryConfig :=
  let ma := if cfg.maxAttempts = 0 then 3 else cfg.maxAttempts
  let ib := if cfg.initialBackoff = 0 then 100 else cfg.initialBackoff
  let mb := if cfg.maxBackoff = 0 then 2000 else cfg.maxBackoff
  { maxAttempts := ma
    initialBackoff := ib
    maxBackoff := if mb < ib then ib else mb }

/-- Observable outcome of one `executeWithRetry` run: the returned error, the
number of `fn` invocations, and the backoff sleeps performed. -/
structure RetryTrace where
  result : Option GoErr
  attempts : Nat
  sleeps : List Nat
deriving DecidableEq, Repr

/-- The attempt loop of `executeWithRetry` (`remaining` is the fuel left,
`attemptIdx` the 1-based attempt counter, `backoff` the next sleep). -/
def retryGo (ctx : CtxState) (cfg : RetryConfig) (fn : Nat → Option GoErr) :
    Nat → Nat → Nat → Option GoErr → RetryTrace
  | 0, attemptIdx, _, lastErr => ⟨lastErr, attemptIdx - 1, []⟩
  | remaining + 1, attemptIdx, backoff, _lastErr =>
    match contextError ctx with
    | some e => ⟨some e, attemptIdx - 1, []⟩
    | none =>
      match fn attemptIdx with
      | none => ⟨none, attemptIdx, []⟩
      | some err =>
        match contextError ctx with
        | some ce => ⟨some ce, attemptIdx, []⟩
        | none =>
          if isAuthError err || !isRetryableError err || attemptIdx == cfg.maxAttempts then
            ⟨some err, attemptIdx, []⟩
          else
            let backoff2 :=
              if backoff < cfg.maxBackoff then min (backoff * 2) cfg.maxBackoff
              else backoff
            let next := retryGo ctx cfg fn remaining (attemptIdx + 1) backoff2 (some err)
            ⟨next.result, next.attempts, backoff :: next.sleeps⟩

/-- Go `executeWithRetry`. -/
def executeWithRetry (ctx : CtxState) (cfg : RetryConfig)
    (fn : Nat → Option GoErr) : RetryTrace :=
  let n := cfg.normalized
  retryGo ctx n fn n.maxAttempts 1 n.initialBackoff none

/-! ## General helpers for the theorems -/

/-- `Except` error test (Go `err != nil`). -/
def exceptIsErr {ε α : Type} : Except ε α → Bool
  | .error _ => true
  | .ok _ => false

/-- The count named by the findings-detected claim read literally: every
recommendation bucket — `keep` included — plus the anomalies. -/
def claimAllFindingsCount (r : Report) : Nat :=
  r.CleanupRecommendations.ZeroUsageNonReplicated.length +
  r.CleanupRecommendations.ZeroUsageReplicated.length +
  r.CleanupRecommendations.SafeToDrop.length +
  r.CleanupRecommendations.LikelySafe.length +
  r.CleanupRecommendations.Keep.length +
  r.Anomalies.length

/-- Trailing-whitespace removal, the second half of `strings.TrimSpace`. -/
def listTrimEnd (l : List Char) : List Char :=
  (l.reverse.dropWhile goIsSpace).reverse

/-- The write-kind predicate exactly as the specification words it: the
upper-cased kind equals, or has as a prefix, one of the six write keywords. -/
def claimWriteKind (kind : String) : Bool :=
  let k := strUpper kind
  ["INSERT", "CREATE", "DROP", "ALTER", "UPDATE", "DELETE"].any
    (fun w => k == w || strStartsWith k w)

/-- Writes counter of an optional table (0 when absent). -/
def optWrites : Option Table → Nat
  | none => 0
  | some t => t.Writes

/-! ## C6 — findings-detected exit signal -/

/-- C6 (counterexample): a report whose only nonempty bucket is `keep` makes
the literal claim false — the sum over all recommendation buckets is positive,
yet the exit signal is 0, not 6, because `countFindings` ignores `keep`. -/
theorem exit_signal_keep_only_counterexample :
    ¬ (analyzeExitCode { CleanupRecommendations := { Keep := ["db.t"] } } = 6 ↔
       0 < claimAllFindingsCount { CleanupRecommendations := { Keep := ["db.t"] } }) := by
  decide

/-- C6 (amended): the findings-detected signal (exit code 6) is raised exactly
when, after baseline suppression, the anomalies plus the zero-usage,
safe-to-drop and likely-safe buckets (`keep` excluded) are nonempty, and the
run exits 0 exactly when that count is zero. -/
theorem exit_signal_findings_iff (r : Report) :
    (analyzeExitCode r = 6 ↔ 0 < cmdCountFindings r) ∧
    (analyzeExitCode r = 0 ↔ cmdCountFindings r = 0) := by
  unfold analyzeExitCode analyzeFindingsErr
  by_cases h : 0 < cmdCountFindings r
  · simp [h, classifyError]
    omega
  · simp [h, classifyError]
    omega

/-! ## C7 — report host from URL parsing -/

/-- C7: the report assembler fills the database-host metadata field with
`extractHost` of the configured DSN; `extractHost` URL-parses the DSN and
yields the literal `"unknown"` whenever parsing fails (and also for an empty
DSN or an empty hostname); when parsing succeeds with a nonempty hostname,
that hostname is used. -/
theorem report_host_from_url_parsing :
    (∀ cfg version gAt lb entries tables services edges anomalies recs dur k8s,
      (buildReport cfg version gAt lb entries tables services edges anomalies
          recs dur k8s).Metadata.ClickHouseHost = extractHost cfg.ClickHouseDSN) ∧
    (∀ dsn, exceptIsErr (goURLParse dsn) = true → extractHost dsn = "unknown") ∧
    (∀ dsn u, goURLParse dsn = .ok u → urlHostname u.host ≠ "" →
      extractHost dsn = urlHostname u.host) := by
  refine ⟨fun _ _ _ _ _ _ _ _ _ _ _ _ => rfl, ?_, ?_⟩
  · intro dsn herr
    unfold extractHost
    by_cases hd : dsn = ""
    · simp [hd]
    · simp only [hd, if_false]
      cases hp : goURLParse dsn with
      | error e => rfl
      | ok u => rw [hp] at herr; simp [exceptIsErr] at herr
  · intro dsn u hp hh
    unfold extractHost
    by_cases hd : dsn = ""
    · subst hd
      have h0 : goURLParse "" = .ok { scheme := "", host := "" } := rfl
      injection hp.symm.trans h0 with hu
      subst hu
      exact absurd (by decide : urlHostname ("" : String) = "") hh
    · simp only [hd, if_false]
      rw [hp]
      simp [hh]

/-- C7 (witness): the URL-parse failure `"://invalid"` yields `"unknown"`, and
a well-formed DSN yields its URL hostname in the report metadata. -/
theorem report_host_from_url_parsing_witness :
    extractHost "://invalid" = "unknown" ∧
    (buildReport { ClickHouseDSN := "clickhouse://localhost:9000/default" } "v"
        0 0 [] [] [] [] [] {} "" false).Metadata.ClickHouseHost = "localhost" := by
  constructor
  · exact report_host_from_url_parsing.2.1 "://invalid" (by decide)
  · rw [report_host_from_url_parsing.1
      { ClickHouseDSN := "clickhouse://localhost:9000/default" } "v" 0 0 [] [] [] [] [] {} "" false]
    decide

/-! ## C8 — retry semantics -/

/-- C8: under the default retry configuration and a live context, (a) a run
whose every failure is transient (never auth-classified, always
retryable-classified) performs at most 3 attempts — i.e. at most
`max_attempts - 1 = 2` retries — and its backoff sleeps are the exponential
schedule `100ms, 200ms` cut to the retries performed; (b) an auth-classified
failure on the first attempt ends the run at exactly one attempt with no
backoff sleep; (c) once the total query-timeout context has fired, the
reported cause is `context.DeadlineExceeded`, not the generic cancellation,
and no further attempt is made. -/
theorem executeWithRetry_semantics :
    (∀ fn : Nat → Option GoErr,
      (∀ i e, fn i = some e → isAuthError e = false ∧ isRetryableError e = true) →
      (executeWithRetry {} {} fn).attempts ≤ 3 ∧
      (executeWithRetry {} {} fn).sleeps =
        List.take ((executeWithRetry {} {} fn).attempts - 1) [100, 200]) ∧
    (∀ fn e, fn 1 = some e → isAuthError e = true →
      executeWithRetry {} {} fn = ⟨some e, 1, []⟩) ∧
    (contextError firedTimeoutCtx = some GoErr.deadlineExceeded ∧
      ∀ cfg fn, (executeWithRetry firedTimeoutCtx cfg fn).result =
          some GoErr.deadlineExceeded ∧
        (executeWithRetry firedTimeoutCtx cfg fn).attempts = 0) := by
  refine ⟨?_, ?_, rfl, ?_⟩
  · intro fn h
    have hexec : executeWithRetry {} {} fn = retryGo {} ⟨3, 100, 2000⟩ fn 3 1 100 none := rfl
    rw [hexec]
    cases h1 : fn 1 with
    | none => simp [retryGo, contextError, h1]
    | some e1 =>
      have ⟨ha1, hr1⟩ := h 1 e1 h1
      cases h2 : fn 2 with
      | none => simp [retryGo, contextError, h1, h2, ha1, hr1]
      | some e2 =>
        have ⟨ha2, hr2⟩ := h 2 e2 h2
        cases h3 : fn 3 with
        | none => simp [retryGo, contextError, h1, h2, h3, ha1, hr1, ha2, hr2]
        | some e3 => simp [retryGo, contextError, h1, h2, h3, ha1, hr1, ha2, hr2]
  · intro fn e h1 hauth
    have hexec : executeWithRetry {} {} fn = retryGo {} ⟨3, 100, 2000⟩ fn 3 1 100 none := rfl
    rw [hexec]
    simp [retryGo, contextError, h1, hauth]
  · intro cfg fn
    have hpos : cfg.normalized.maxAttempts ≠ 0 := by
      unfold RetryConfig.normalized
      by_cases h : cfg.maxAttempts = 0 <;> simp [h]
    obtain ⟨k, hk⟩ := Nat.exists_eq_succ_of_ne_zero hpos
    have hexec : executeWithRetry firedTimeoutCtx cfg fn =
        retryGo firedTimeoutCtx cfg.normalized fn cfg.normalized.maxAttempts 1
          cfg.normalized.initialBackoff none := rfl
    rw [hexec, hk]
    simp [retryGo, contextError, firedTimeoutCtx]

/-- C8 (witness): a backend failing with `"i/o timeout"` on every attempt is
retried to exactly 3 attempts with sleeps `[100, 200]`; a `code: 516`
authentication failure is attempted exactly once with no sleep; a fired
total-timeout context reports the deadline as the cause. -/
theorem executeWithRetry_semantics_witness :
    ((executeWithRetry {} {} (fun _ => some (.textual "i/o timeout"))).attempts ≤ 3 ∧
      (executeWithRetry {} {} (fun _ => some (.textual "i/o timeout"))).sleeps =
        List.take
          ((executeWithRetry {} {} (fun _ => some (.textual "i/o timeout"))).attempts - 1)
          [100, 200]) ∧
    executeWithRetry {} {}
        (fun _ => some (.textual "code: 516, message: Authentication failed")) =
      ⟨some (.textual "code: 516, message: Authentication failed"), 1, []⟩ ∧
    (executeWithRetry firedTimeoutCtx {} (fun _ => none)).result =
      some GoErr.deadlineExceeded := by
  refine ⟨?_, ?_, ?_⟩
  · exact executeWithRetry_semantics.1 (fun _ => some (.textual "i/o timeout"))
      (fun i e he => by cases he; constructor <;> decide)
  · exact executeWithRetry_semantics.2.1
      (fun _ => some (.textual "code: 516, message: Authentication failed")) _ rfl (by decide)
  · exact (executeWithRetry_semantics.2.2.2 {} (fun _ => none)).1

/-! ## C9 — suppression law -/

lemma slContains_iff (l : List String) (a : String) :
    slContains l a = true ↔ a ∈ l := by
  induction l with
  | nil => simp [slContains]
  | cons x xs ih =>
    simp only [slContains, Bool.or_eq_true, beq_iff_eq, ih, List.mem_cons]
    exact or_congr_left (by exact eq_comm)

lemma mem_sortStrInsert (x a : String) (l : List String) :
    a ∈ sortStrInsert x l ↔ a = x ∨ a ∈ l := by
  induction l with
  | nil => simp [sortStrInsert]
  | cons y ys ih =>
    by_cases h : x ≤ y
    · simp [sortStrInsert, h]
    · simp only [sortStrInsert, if_neg h, List.mem_cons, ih]
      tauto

lemma mem_sortStr (l : List String) (a : String) : a ∈ sortStr l ↔ a ∈ l := by
  induction l with
  | nil => simp [sortStr]
  | cons x xs ih =>
    show a ∈ sortStrInsert x (sortStr xs) ↔ _
    rw [mem_sortStrInsert]
    simp [ih]

lemma mem_setInsert (s : List String) (x a : String) :
    a ∈ setInsert s x ↔ a ∈ s ∨ a = x := by
  unfold setInsert
  by_cases h : slContains s x = true
  · simp only [h, if_true]
    have := (slContains_iff s x).mp h
    constructor
    · exact Or.inl
    · rintro (hs | rfl)
      · exact hs
      · exact this
  · simp [h]

lemma mem_foldl_setInsert (l : List String) (a : String) :
    ∀ s, a ∈ l.foldl setInsert s ↔ a ∈ s ∨ a ∈ l := by
  induction l with
  | nil => simp
  | cons x xs ih =>
    intro s
    simp only [List.foldl_cons, ih, mem_setInsert, List.mem_cons]
    tauto

lemma mem_CollectFingerprints_iff (r : Report) (x : String) :
    x ∈ CollectFingerprints r ↔
      x ∈ r.Anomalies.map FingerprintAnomaly ∨
      x ∈ r.CleanupRecommendations.ZeroUsageNonReplicated.map
        (FingerprintTableRecommendation "zero_usage_non_replicated") ∨
      x ∈ r.CleanupRecommendations.ZeroUsageReplicated.map
        (FingerprintTableRecommendation "zero_usage_replicated") ∨
      x ∈ r.CleanupRecommendations.SafeToDrop.map (fingerprintTableName "safe_to_drop") ∨
      x ∈ r.CleanupRecommendations.LikelySafe.map (fingerprintTableName "likely_safe") := by
  unfold CollectFingerprints
  rw [mem_sortStr, mem_foldl_setInsert]
  simp [or_assoc]

/-- C9: suppressing a report against the fingerprints collected from that very
report removes every finding: the remaining count (anomalies plus the
zero-usage, safe-to-drop and likely-safe buckets) is 0. -/
theorem suppressKnown_collect_remaining_zero (r : Report) :
    (SuppressKnown r (CollectFingerprints r)).2.2 = 0 := by
  have hin : ∀ x, x ∈ CollectFingerprints r →
      slContains (CollectFingerprints r) x = true :=
    fun x hx => (slContains_iff _ _).mpr hx
  by_cases hk : (CollectFingerprints r).isEmpty
  · have hE : CollectFingerprints r = [] := by
      cases h : CollectFingerprints r with
      | nil => rfl
      | cons y t => rw [h] at hk; simp [List.isEmpty] at hk
    have hforce : ∀ {α : Type} (l : List α) (f : α → String),
        (∀ y ∈ l, f y ∈ CollectFingerprints r) → l = [] := by
      intro α l f hf
      cases l with
      | nil => rfl
      | cons y t => exact absurd (hE ▸ hf y (List.mem_cons_self y t)) (List.not_mem_nil _)
    have ha : r.Anomalies = [] :=
      hforce _ FingerprintAnomaly (fun y hy => (mem_CollectFingerprints_iff r _).mpr
        (Or.inl (List.mem_map_of_mem _ hy)))
    have hzn : r.CleanupRecommendations.ZeroUsageNonReplicated = [] :=
      hforce _ (FingerprintTableRecommendation "zero_usage_non_replicated")
        (fun y hy => (mem_CollectFingerprints_iff r _).mpr
          (Or.inr (Or.inl (List.mem_map_of_mem _ hy))))
    have hzr : r.CleanupRecommendations.ZeroUsageReplicated = [] :=
      hforce _ (FingerprintTableRecommendation "zero_usage_replicated")
        (fun y hy => (mem_CollectFingerprints_iff r _).mpr
          (Or.inr (Or.inr (Or.inl (List.mem_map_of_mem _ hy)))))
    have hs : r.CleanupRecommendations.SafeToDrop = [] :=
      hforce _ (fingerprintTableName "safe_to_drop")
        (fun y hy => (mem_CollectFingerprints_iff r _).mpr
          (Or.inr (Or.inr (Or.inr (Or.inl (List.mem_map_of_mem _ hy))))))
    have hl : r.CleanupRecommendations.LikelySafe = [] :=
      hforce _ (fingerprintTableName "likely_safe")
        (fun y hy => (mem_CollectFingerprints_iff r _).mpr
          (Or.inr (Or.inr (Or.inr (Or.inr (List.mem_map_of_mem _ hy))))))
    unfold SuppressKnown
    rw [if_pos hk]
    unfold CountFindings
    rw [ha, hzn, hzr, hs, hl]
    rfl
  · have e1 : r.Anomalies.filter
        (fun a => !(slContains (CollectFingerprints r) (FingerprintAnomaly a))) = [] :=
      List.filter_eq_nil_iff.mpr (fun a hya => by
        simp [hin _ ((mem_CollectFingerprints_iff r _).mpr
          (Or.inl (List.mem_map_of_mem _ hya)))])
    have e2 : r.CleanupRecommendations.ZeroUsageNonReplicated.filter
        (fun rec => !(slContains (CollectFingerprints r)
          (FingerprintTableRecommendation "zero_usage_non_replicated" rec))) = [] :=
      List.filter_eq_nil_iff.mpr (fun a hya => by
        simp [hin _ ((mem_CollectFingerprints_iff r _).mpr
          (Or.inr (Or.inl (List.mem_map_of_mem _ hya))))])
    have e3 : r.CleanupRecommendations.ZeroUsageReplicated.filter
        (fun rec => !(slContains (CollectFingerprints r)
          (FingerprintTableRecommendation "zero_usage_replicated" rec))) = [] :=
      List.filter_eq_nil_iff.mpr (fun a hya => by
        simp [hin _ ((mem_CollectFingerprints_iff r _).mpr
          (Or.inr (Or.inr (Or.inl (List.mem_map_of_mem _ hya)))))])
    have e4 : r.CleanupRecommendations.SafeToDrop.filter
        (fun n => !(slContains (CollectFingerprints r)
          (fingerprintTableName "safe_to_drop" n))) = [] :=
      List.filter_eq_nil_iff.mpr (fun a hya => by
        simp [hin _ ((mem_CollectFingerprints_iff r _).mpr
          (Or.inr (Or.inr (Or.inr (Or.inl (List.mem_map_of_mem _ hya))))))])
    have e5 : r.CleanupRecommendations.LikelySafe.filter
        (fun n => !(slContains (CollectFingerprints r)
          (fingerprintTableName "likely_safe" n))) = [] :=
      List.filter_eq_nil_iff.mpr (fun a hya => by
        simp [hin _ ((mem_CollectFingerprints_iff r _).mpr
          (Or.inr (Or.inr (Or.inr (Or.inr (List.mem_map_of_mem _ hya))))))])
    unfold SuppressKnown
    rw [if_neg hk]
    unfold CountFindings
    simp only [e1, e2, e3, e4, e5, List.length_nil]

/-! ## C10 — exclusion predicate -/

lemma toNat_charOfNat (n : Nat) (h : n < 55296) : (Char.ofNat n).toNat = n := by
  have hv : n.isValidChar := Or.inl h
  have hm : n % 4294967296 = n := Nat.mod_eq_of_lt (by omega)
  simp [Char.ofNat, hv, Char.ofNatAux, Char.toNat, UInt32.toNat, BitVec.toNat_ofNat, hm]

lemma charLowerAscii_idem (c : Char) :
    charLowerAscii (charLowerAscii c) = charLowerAscii c := by
  unfold charLowerAscii
  by_cases h : 65 ≤ c.toNat ∧ c.toNat ≤ 90
  · rw [if_pos h]
    have ht : (Char.ofNat (c.toNat + 32)).toNat = c.toNat + 32 :=
      toNat_charOfNat _ (by omega)
    rw [if_neg (by rw [ht]; omega)]
  · rw [if_neg h, if_neg h]

lemma goIsSpace_charLowerAscii (c : Char) :
    goIsSpace (charLowerAscii c) = goIsSpace c := by
  unfold charLowerAscii goIsSpace
  by_cases h : 65 ≤ c.toNat ∧ c.toNat ≤ 90
  · rw [if_pos h]
    have ht : (Char.ofNat (c.toNat + 32)).toNat = c.toNat + 32 :=
      toNat_charOfNat _ (by omega)
    rw [ht, decide_eq_decide]
    omega
  · rw [if_neg h]

lemma dropWhile_dropWhile {α : Type} (p : α → Bool) (l : List α) :
    List.dropWhile p (List.dropWhile p l) = List.dropWhile p l := by
  induction l with
  | nil => rfl
  | cons a t ih =>
    by_cases h : p a
    · simp [List.dropWhile_cons, h, ih]
    · simp [List.dropWhile_cons, h]

lemma head?_dropWhile_false {α : Type} (p : α → Bool) (l : List α) (c : α)
    (h : (List.dropWhile p l).head? = some c) : p c = false := by
  induction l with
  | nil => simp at h
  | cons a t ih =>
    by_cases hp : p a
    · rw [List.dropWhile_cons, if_pos hp] at h
      exact ih h
    · rw [List.dropWhile_cons, if_neg hp] at h
      simp only [List.head?_cons, Option.some.injEq] at h
      rw [← h]
      exact Bool.of_not_eq_true hp

lemma head?_listTrimEnd (l : List Char) (c : Char)
    (h : (listTrimEnd l).head? = some c) : l.head? = some c := by
  unfold listTrimEnd at h
  rw [List.head?_reverse] at h
  obtain ⟨pre, hpre⟩ := List.dropWhile_suffix (l := l.reverse) goIsSpace
  have hne : List.dropWhile goIsSpace l.reverse ≠ [] := by
    intro hnil
    rw [hnil] at h
    simp at h
  have hlast : l.reverse.getLast? = some c := by
    rw [← hpre, List.getLast?_append_of_ne_nil _ hne]
    exact h
  rwa [List.getLast?_reverse] at hlast

lemma dropWhile_listTrimEnd_dropWhile (l : List Char) :
    List.dropWhile goIsSpace (listTrimEnd (List.dropWhile goIsSpace l)) =
      listTrimEnd (List.dropWhile goIsSpace l) := by
  cases htr : listTrimEnd (List.dropWhile goIsSpace l) with
  | nil => rfl
  | cons c rest =>
    have hc : (List.dropWhile goIsSpace l).head? = some c :=
      head?_listTrimEnd _ _ (by rw [htr]; rfl)
    have hpc : goIsSpace c = false := head?_dropWhile_false _ _ _ hc
    rw [List.dropWhile_cons, if_neg (by simp [hpc])]

lemma listTrimEnd_idem (l : List Char) : listTrimEnd (listTrimEnd l) = listTrimEnd l := by
  unfold listTrimEnd
  rw [List.reverse_reverse, dropWhile_dropWhile]

lemma listTrim_eq_trimEnd (l : List Char) :
    listTrim l = listTrimEnd (List.dropWhile goIsSpace l) := rfl

lemma listTrim_idem (l : List Char) : listTrim (listTrim l) = listTrim l := by
  rw [listTrim_eq_trimEnd, listTrim_eq_trimEnd, dropWhile_listTrimEnd_dropWhile,
    listTrimEnd_idem]

lemma listTrim_map_lower (l : List Char) :
    listTrim (l.map charLowerAscii) = (listTrim l).map charLowerAscii := by
  have hpf : (goIsSpace ∘ charLowerAscii) = goIsSpace := funext goIsSpace_charLowerAscii
  unfold listTrim
  rw [List.dropWhile_map, hpf, ← List.map_reverse, List.dropWhile_map, hpf,
    ← List.map_reverse]

lemma map_charLowerAscii_idem (l : List Char) :
    (l.map charLowerAscii).map charLowerAscii = l.map charLowerAscii := by
  rw [List.map_map]
  exact List.map_congr_left (fun c _ => charLowerAscii_idem c)

lemma normalizePattern_idem (x : String) :
    normalizePattern (normalizePattern x) = normalizePattern x := by
  apply String.ext
  show List.map charLowerAscii (listTrim (List.map charLowerAscii (listTrim x.data))) =
    List.map charLowerAscii (listTrim x.data)
  rw [listTrim_map_lower, listTrim_idem, map_charLowerAscii_idem]

lemma pathMatch_nil_pattern (v : String) :
    pathMatch "" v = .ok v.data.isEmpty := rfl

/-- C10: the exclusion predicate — (1) matching is computed on lower-cased,
trimmed forms, so pre-normalizing either argument does not change
`patternMatches`; (2) when `path.Match` reports a bad pattern the normalized
pattern is compared to the normalized value as an exact string; (3) a pattern
of `exclude_tables` excludes an identifier as soon as it matches the full
(normalized) `database.table` string or the bare table name after the first
dot. -/
theorem isTableExcluded_matching_spec :
    (∀ p v, patternMatches p v =
      patternMatches (normalizePattern p) (normalizePattern v)) ∧
    (∀ p v, exceptIsErr (pathMatch (normalizePattern p) (normalizePattern v)) = true →
      patternMatches p v = (normalizePattern p == normalizePattern v)) ∧
    (∀ cfg : Config, ∀ full pat, pat ∈ cfg.ExcludeTables →
      normalizePattern full ≠ "" →
      (patternMatches pat (normalizePattern full) = true ∨
        ((splitTableName (normalizePattern full)).snd ≠ "" ∧
          patternMatches pat (splitTableName (normalizePattern full)).snd = true)) →
      cfg.IsTableExcluded full = true) := by
  refine ⟨?_, ?_, ?_⟩
  · intro p v
    unfold patternMatches
    rw [normalizePattern_idem, normalizePattern_idem]
  · intro p v herr
    unfold patternMatches
    by_cases hnp : (normalizePattern p).isEmpty
    · exfalso
      rw [(String.isEmpty_iff _).mp hnp, pathMatch_nil_pattern] at herr
      simp [exceptIsErr] at herr
    · have hnp' : (normalizePattern p).isEmpty = false := Bool.of_not_eq_true hnp
      by_cases hnv : (normalizePattern v).isEmpty
      · have hne2 : normalizePattern p ≠ normalizePattern v := by
          rw [(String.isEmpty_iff _).mp hnv]
          intro he
          rw [he] at hnp'
          exact absurd hnp' (by decide)
        have hbeq : (normalizePattern p == normalizePattern v) = false :=
          beq_eq_false_iff_ne.mpr hne2
        simp [hnp', hnv, hbeq]
      · have hnv' : (normalizePattern v).isEmpty = false := Bool.of_not_eq_true hnv
        cases hm : pathMatch (normalizePattern p) (normalizePattern v) with
        | error e => simp [hnp', hnv', hm]
        | ok b => rw [hm] at herr; simp [exceptIsErr] at herr
  · intro cfg full pat hmem hne hmatch
    unfold Config.IsTableExcluded
    rw [if_neg (by simpa [String.isEmpty_iff] using hne)]
    by_cases hdb : !(splitTableName (normalizePattern full)).fst.isEmpty &&
        cfg.IsDatabaseExcluded (splitTableName (normalizePattern full)).fst
    · simp only [hdb, if_true]
    · simp only [hdb, Bool.false_eq_true, if_false]
      rw [if_neg (by
        intro he
        rw [List.isEmpty_iff.mp he] at hmem
        exact absurd hmem (List.not_mem_nil _))]
      refine List.any_eq_true.mpr ⟨pat, hmem, ?_⟩
      rcases hmatch with h | ⟨ht, h⟩
      · simp [h]
      · have hie : (splitTableName (normalizePattern full)).snd.isEmpty = false :=
          Bool.of_not_eq_true (fun he => ht ((String.isEmpty_iff _).mp he))
        simp [h, hie]

/-- C10 (witness): the invalid glob `"["` falls back to an exact comparison
and a bare-table pattern excludes the mixed-case identifier. -/
theorem isTableExcluded_matching_spec_witness :
    patternMatches "[" "[" = (normalizePattern "[" == normalizePattern "[") ∧
    Config.IsTableExcluded { ExcludeTables := ["users"] } "DB.Users" = true ∧
    patternMatches " DB.* " "db.events" =
      patternMatches (normalizePattern " DB.* ") (normalizePattern "db.events") := by
  refine ⟨?_, ?_, ?_⟩
  · exact isTableExcluded_matching_spec.2.1 "[" "[" (by decide)
  · exact isTableExcluded_matching_spec.2.2 { ExcludeTables := ["users"] } "DB.Users" "users"
      (by decide) (by decide) (Or.inr (by decide))
  · exact isTableExcluded_matching_spec.1 " DB.* " "db.events"

/-! ## C4 — table-map membership and zero counters -/

lemma alookup_aset {α : Type} (m : List (String × α)) (k : String) (v : α)
    (key : String) :
    alookup (aset m k v) key = if k = key then some v else alookup m key := by
  induction m with
  | nil => simp [aset, alookup]
  | cons hd tl ih =>
    obtain ⟨ka, w⟩ := hd
    by_cases h1 : ka = k
    · subst h1
      by_cases h2 : ka = key <;> simp [aset, alookup, h2]
    · by_cases h2 : ka = key
      · subst h2
        have hkk : ¬ k = ka := fun hkk => h1 hkk.symm
        simp [aset, alookup, h1, hkk]
      · simp [aset, alookup, h1, h2, ih]

lemma lookup_processTableName_isSome (cfg : Config) (e : QueryLogEntry)
    (m : List (String × Table)) (n name : String) :
    (alookup (processTableName cfg e m n) name).isSome = true ↔
      (alookup m name).isSome = true ∨
        (name = n ∧ n ≠ "" ∧ cfg.IsTableExcluded n = false) := by
  unfold processTableName
  by_cases h1 : n = ""
  · simp [h1]
  · by_cases h2 : cfg.IsTableExcluded n
    · simp [h1, h2]
    · have h2' : cfg.IsTableExcluded n = false := Bool.of_not_eq_true h2
      by_cases h3 : n = name
      · subst h3
        simp [h1, h2', alookup_aset]
      · have h3' : ¬ name = n := fun hh => h3 hh.symm
        simp [h1, h2', alookup_aset, h3, h3']

lemma lookup_tablesFold_isSome (cfg : Config) (e : QueryLogEntry) :
    ∀ (ts : List String) (m : List (String × Table)) (name : String),
      (alookup (ts.foldl (processTableName cfg e) m) name).isSome = true ↔
        (alookup m name).isSome = true ∨
          (name ∈ ts ∧ name ≠ "" ∧ cfg.IsTableExcluded name = false) := by
  intro ts
  induction ts with
  | nil => simp
  | cons hd tl ih =>
    intro m name
    rw [List.foldl_cons, ih, lookup_processTableName_isSome]
    constructor
    · rintro ((hm | ⟨rfl, hne, hex⟩) | ⟨htl, hne, hex⟩)
      · exact Or.inl hm
      · exact Or.inr ⟨List.mem_cons_self _ _, hne, hex⟩
      · exact Or.inr ⟨List.mem_cons_of_mem _ htl, hne, hex⟩
    · rintro (hm | ⟨hmem, hne, hex⟩)
      · exact Or.inl (Or.inl hm)
      · rcases List.mem_cons.mp hmem with rfl | htl
        · exact Or.inl (Or.inr ⟨rfl, hne, hex⟩)
        · exact Or.inr ⟨htl, hne, hex⟩

lemma lookup_entriesFold_isSome (cfg : Config) :
    ∀ (entries : List QueryLogEntry) (m : List (String × Table)) (name : String),
      (alookup (entries.foldl (processEntry cfg) m) name).isSome = true ↔
        (alookup m name).isSome = true ∨
          ∃ e ∈ entries, name ∈ e.Tables ∧ name ≠ "" ∧
            cfg.IsTableExcluded name = false := by
  intro entries
  induction entries with
  | nil => simp
  | cons hd tl ih =>
    intro m name
    rw [List.foldl_cons, ih]
    unfold processEntry
    rw [lookup_tablesFold_isSome]
    constructor
    · rintro ((hm | hhd) | ⟨e, he, hre⟩)
      · exact Or.inl hm
      · exact Or.inr ⟨hd, List.mem_cons_self _ _, hhd⟩
      · exact Or.inr ⟨e, List.mem_cons_of_mem _ he, hre⟩
    · rintro (hm | ⟨e, he, hre⟩)
      · exact Or.inl (Or.inl hm)
      · rcases List.mem_cons.mp he with rfl | htl
        · exact Or.inl (Or.inr hre)
        · exact Or.inr ⟨e, htl, hre⟩

/-- C4 (counterexample): one `SELECT` row with `read_rows = 0` referencing
`db.t` puts `db.t` into the table map with `reads + writes = 0`, so an
observed table need not have positive counters. -/
theorem tableModel_zero_counters_counterexample :
    (alookup (buildTableModel {}
        [{ QueryID := "q1", QueryKind := "SELECT", ReadRows := 0,
           Tables := ["db.t"] }]) "db.t").map
      (fun t => t.Reads + t.Writes) = some 0 := by
  decide

/-- C4 (amended): a table is present in the analyzer's table map after the
fold exactly when some log row referenced it under a non-empty, non-excluded
name; `reads + writes` of an observed table may nonetheless be zero, so
`reads + writes = 0` does not imply the table was unreferenced. -/
theorem buildTableModel_mem_iff (cfg : Config) (entries : List QueryLogEntry)
    (name : String) :
    (alookup (buildTableModel cfg entries) name).isSome = true ↔
      ∃ e ∈ entries, name ∈ e.Tables ∧ name ≠ "" ∧
        cfg.IsTableExcluded name = false := by
  unfold buildTableModel
  rw [lookup_entriesFold_isSome]
  simp [alookup]

/-! ## C5 — write-kind detection -/

lemma listStartsWith_head (l p : List Char) (c : Char)
    (h : listStartsWith l (c :: p) = true) : l.head? = some c := by
  cases l with
  | nil => simp [listStartsWith] at h
  | cons a t =>
    have ha : a = c := by
      have := (Bool.and_eq_true _ _).mp h
      exact beq_iff_eq.mp this.1
    rw [ha]
    rfl

lemma isWriteQuery_not_read (k : String) (h : isWriteQuery k = true) :
    isReadQuery k = false := by
  unfold isWriteQuery at h
  unfold isReadQuery
  simp only [Bool.or_eq_true, beq_iff_eq] at h
  have hhead : ∃ c, (strUpper k).data.head? = some c ∧
      (c = 'I' ∨ c = 'C' ∨ c = 'D' ∨ c = 'A' ∨ c = 'U') := by
    rcases h with ((((((h | h) | h) | h) | h) | h) | h) | h
    · exact ⟨'I', by rw [h]; rfl, Or.inl rfl⟩
    · exact ⟨'C', by rw [h]; rfl, Or.inr (Or.inl rfl)⟩
    · exact ⟨'D', by rw [h]; rfl, Or.inr (Or.inr (Or.inl rfl))⟩
    · exact ⟨'A', by rw [h]; rfl, Or.inr (Or.inr (Or.inr (Or.inl rfl)))⟩
    · exact ⟨'U', by rw [h]; rfl, Or.inr (Or.inr (Or.inr (Or.inr rfl)))⟩
    · exact ⟨'D', by rw [h]; rfl, Or.inr (Or.inr (Or.inl rfl))⟩
    · exact ⟨'I', listStartsWith_head _ _ 'I' h, Or.inl rfl⟩
    · exact ⟨'C', listStartsWith_head _ _ 'C' h, Or.inr (Or.inl rfl)⟩
  obtain ⟨c, hc, hcases⟩ := hhead
  have hS : strStartsWith (strUpper k) "SELECT" = true → False := by
    intro hs
    have hcS := listStartsWith_head (strUpper k).data "ELECT".data 'S' hs
    rw [hc] at hcS
    injection hcS with hcS
    rcases hcases with rfl | rfl | rfl | rfl | rfl <;> exact absurd hcS (by decide)
  have h1 : ((strUpper k) == "SELECT") = false := by
    apply beq_eq_false_iff_ne.mpr
    intro he
    exact hS (by rw [he]; decide)
  have h2 : strStartsWith (strUpper k) "SELECT" = false := by
    cases hb : strStartsWith (strUpper k) "SELECT" with
    | false => rfl
    | true => exact (hS hb).elim
  simp [h1, h2]

lemma lookup_processTableName_other (cfg : Config) (e : QueryLogEntry)
    (m : List (String × Table)) (n name : String) (hne : n ≠ name) :
    alookup (processTableName cfg e m n) name = alookup m name := by
  unfold processTableName
  by_cases h1 : n = ""
  · simp [h1]
  · by_cases h2 : cfg.IsTableExcluded n <;> simp [h1, h2, alookup_aset, hne]

lemma writes_processTableName_self (cfg : Config) (e : QueryLogEntry)
    (m : List (String × Table)) (name : String)
    (hw : isWriteQuery e.QueryKind = true) (h1 : name ≠ "")
    (h2 : cfg.IsTableExcluded name = false) :
    optWrites (alookup (processTableName cfg e m name) name) =
      optWrites (alookup m name) + e.WrittenRows := by
  unfold processTableName
  rw [if_neg h1, if_neg (by simp [h2])]
  have hr : isReadQuery e.QueryKind = false := isWriteQuery_not_read _ hw
  cases halook : alookup m name with
  | none =>
    simp only [halook, hr, hw, alookup_aset, if_pos rfl]
    split_ifs <;> simp_all [optWrites, newLogTable]
  | some t =>
    simp only [halook, hr, hw, alookup_aset, if_pos rfl]
    split_ifs <;> simp_all [optWrites]

lemma writes_tablesFold (cfg : Config) (e : QueryLogEntry)
    (hw : isWriteQuery e.QueryKind = true) :
    ∀ (ts : List String) (m : List (String × Table)) (name : String),
      name ≠ "" → cfg.IsTableExcluded name = false →
      optWrites (alookup (ts.foldl (processTableName cfg e) m) name) =
        optWrites (alookup m name) + ts.count name * e.WrittenRows := by
  intro ts
  induction ts with
  | nil => simp
  | cons hd tl ih =>
    intro m name hne hex
    rw [List.foldl_cons]
    by_cases hh : hd = name
    · subst hh
      rw [ih (processTableName cfg e m hd) hd hne hex,
        writes_processTableName_self cfg e m hd hw hne hex]
      have hcnt : (hd :: tl).count hd = tl.count hd + 1 := by
        simp [List.count_cons]
      rw [hcnt, Nat.add_mul, Nat.one_mul]
      omega
    · rw [ih (processTableName cfg e m hd) name hne hex,
        lookup_processTableName_other cfg e m hd name hh]
      have hcnt : (hd :: tl).count name = tl.count name := by
        simp [List.count_cons, hh]
      rw [hcnt]

/-- C5 (counterexample): the specification's write-kind predicate — prefix
match against all six keywords — accepts `"DROP TABLE"`, but the source
`isWriteQuery` rejects it: only `INSERT` and `CREATE` are prefix-matched. -/
theorem isWriteQuery_claim_counterexample :
    claimWriteKind "DROP TABLE" = true ∧ isWriteQuery "DROP TABLE" = false := by
  decide

/-- C5 (amended): the write-kind test holds exactly when the upper-cased kind
equals one of `INSERT`, `CREATE`, `DROP`, `ALTER`, `UPDATE`, `DELETE`, or has
`INSERT` or `CREATE` (only) as a prefix; and folding a log row whose kind is a
write kind adds its written-rows to the writes of each referenced, non-empty,
non-excluded table, once per reference. -/
theorem isWriteQuery_amended :
    (∀ kind, isWriteQuery kind = true ↔
      (strUpper kind = "INSERT" ∨ strUpper kind = "CREATE" ∨
       strUpper kind = "DROP" ∨ strUpper kind = "ALTER" ∨
       strUpper kind = "UPDATE" ∨ strUpper kind = "DELETE" ∨
       strStartsWith (strUpper kind) "INSERT" = true ∨
       strStartsWith (strUpper kind) "CREATE" = true)) ∧
    (∀ (cfg : Config) (m : List (String × Table)) (e : QueryLogEntry)
        (name : String),
      isWriteQuery e.QueryKind = true → name ≠ "" →
      cfg.IsTableExcluded name = false →
      optWrites (alookup (processEntry cfg m e) name) =
        optWrites (alookup m name) + e.Tables.count name * e.WrittenRows) := by
  constructor
  · intro kind
    unfold isWriteQuery
    simp only [Bool.or_eq_true, beq_iff_eq]
    tauto
  · intro cfg m e name hw hne hex
    exact writes_tablesFold cfg e hw e.Tables m name hne hex

/-- C5 (witness): an `ALTER` row writing 5 rows and referencing `db.a` twice
adds 10 to the table's writes. -/
theorem isWriteQuery_amended_witness :
    optWrites (alookup (processEntry {} []
      { QueryKind := "ALTER", WrittenRows := 5, Tables := ["db.a", "db.a"] })
      "db.a") = 10 := by
  have h := isWriteQuery_amended.2 {} []
    { QueryKind := "ALTER", WrittenRows := 5, Tables := ["db.a", "db.a"] }
    "db.a" (by decide) (by decide) (by decide)
  rw [h]
  decide

/-! ## C3 — edges for excluded tables -/

/-- C3 (code bug): with `db1.excluded_table` excluded, a log row touching only
that table still produces the edge `(1.1.1.1, db1.excluded_table)`, although
the exclusion predicate holds for it and the table model (which does filter)
contains no such table — the analyzer's own test `TestBuildEdges` expects no
edge here. -/
theorem buildEdges_emits_excluded_edge :
    Config.IsTableExcluded { ExcludeTables := ["db1.excluded_table"] }
      "db1.excluded_table" = true ∧
    (buildEdges []
        [{ EventTime := 0, ClientIP := "1.1.1.1", QueryKind := "SELECT",
           ReadRows := 1, Tables := ["db1.excluded_table"] }]).map
      (fun ed => (ed.ServiceIP, ed.TableName)) =
      [("1.1.1.1", "db1.excluded_table")] ∧
    alookup (buildTableModel { ExcludeTables := ["db1.excluded_table"] }
        [{ EventTime := 0, ClientIP := "1.1.1.1", QueryKind := "SELECT",
           ReadRows := 1, Tables := ["db1.excluded_table"] }])
      "db1.excluded_table" = none := by
  refine ⟨by decide, by decide, by decide⟩

/-! ## C1, C2 — recommendation pipeline -/

lemma mem_insertBySizeDesc (r x : TableRecommendation) (l : List TableRecommendation) :
    x ∈ insertBySizeDesc r l ↔ x = r ∨ x ∈ l := by
  induction l with
  | nil => simp [insertBySizeDesc]
  | cons y ys ih =>
    by_cases h : y.SizeMB ≤ r.SizeMB
    · simp [insertBySizeDesc, h]
    · simp only [insertBySizeDesc, if_neg h, List.mem_cons, ih]
      tauto

lemma mem_sortBySizeDesc (l : List TableRecommendation) (x : TableRecommendation) :
    x ∈ sortBySizeDesc l ↔ x ∈ l := by
  induction l with
  | nil => simp [sortBySizeDesc]
  | cons y ys ih =>
    show x ∈ insertBySizeDesc y (sortBySizeDesc ys) ↔ _
    rw [mem_insertBySizeDesc]
    simp [ih]

lemma keyNodup_unique {α : Type} (l : List (String × α))
    (hnd : (l.map Prod.fst).Nodup) (k : String) (a b : α)
    (ha : (k, a) ∈ l) (hb : (k, b) ∈ l) : a = b := by
  induction l with
  | nil => simp at ha
  | cons hd tl ih =>
    rw [List.map_cons, List.nodup_cons] at hnd
    rcases List.mem_cons.mp ha with heq | ha'
    · rcases List.mem_cons.mp hb with heq2 | hb'
      · rw [← heq2] at heq
        exact ((Prod.mk.injEq _ _ _ _).mp heq).2
      · exfalso
        apply hnd.1
        rw [← heq]
        exact List.mem_map.mpr ⟨(k, b), hb', rfl⟩
    · rcases List.mem_cons.mp hb with heq2 | hb'
      · exfalso
        apply hnd.1
        rw [← heq2]
        exact List.mem_map.mpr ⟨(k, a), ha', rfl⟩
      · exact ih hnd.2 ha' hb'

/-- C1: under the spec-modelled recommendation pipeline, a zero-usage table at
or above the size threshold with score below 0.30 that is neither a
materialized view nor carries dependencies lands in exactly the zero-usage
bucket selected by its replication flag and in no other bucket; a zero-usage
table below the size threshold appears in neither zero-usage bucket. -/
theorem zero_usage_buckets_spec (scoreFn : Table → Rat) (now : Int) (cfg : Config)
    (tables : List (String × Table)) (name : String) (t : Table)
    (hnd : (tables.map Prod.fst).Nodup) (hmem : (name, t) ∈ tables)
    (hzu : t.ZeroUsage = true) :
    ((tableSizeMB t ≥ cfg.MinTableSizeMB ∧ scoreFn t < 3 / 10 ∧
        t.IsMV = false ∧ t.MVDependency = []) →
      ((t.IsReplicated = true →
        mkTableRec name t ∈
          (generateRecommendations scoreFn now cfg tables).ZeroUsageReplicated ∧
        name ∉ ((generateRecommendations scoreFn now cfg
          tables).ZeroUsageNonReplicated.map TableRecommendation.Name)) ∧
       (t.IsReplicated = false →
        mkTableRec name t ∈
          (generateRecommendations scoreFn now cfg tables).ZeroUsageNonReplicated ∧
        name ∉ ((generateRecommendations scoreFn now cfg
          tables).ZeroUsageReplicated.map TableRecommendation.Name)) ∧
       name ∉ (generateRecommendations scoreFn now cfg tables).SafeToDrop ∧
       name ∉ (generateRecommendations scoreFn now cfg tables).LikelySafe ∧
       name ∉ (generateRecommendations scoreFn now cfg tables).Keep)) ∧
    (tableSizeMB t < cfg.MinTableSizeMB →
      name ∉ ((generateRecommendations scoreFn now cfg
        tables).ZeroUsageNonReplicated.map TableRecommendation.Name) ∧
      name ∉ ((generateRecommendations scoreFn now cfg
        tables).ZeroUsageReplicated.map TableRecommendation.Name)) := by
  have huniq : ∀ p, p ∈ tables → p.fst = name → p.snd = t := by
    intro p hp hf
    have hp' : (name, p.snd) ∈ tables := by
      rw [← hf, Prod.mk.eta]
      exact hp
    exact keyNodup_unique tables hnd name p.snd t hp' hmem
  have hNotStd : ∀ tgt : RecTarget, recTarget scoreFn now cfg name t ≠ tgt →
      name ∉ tables.filterMap (fun p =>
        if recTarget scoreFn now cfg p.fst p.snd = tgt then some p.fst else none) := by
    intro tgt hne hmem2
    obtain ⟨p, hp, hif⟩ := List.mem_filterMap.mp hmem2
    by_cases hc : recTarget scoreFn now cfg p.fst p.snd = tgt
    · rw [if_pos hc] at hif
      injection hif with hif
      rw [hif, huniq p hp hif] at hc
      exact hne hc
    · rw [if_neg hc] at hif
      simp at hif
  have hNotZu : ∀ tgt : RecTarget, recTarget scoreFn now cfg name t ≠ tgt →
      name ∉ (sortBySizeDesc (tables.filterMap (fun p =>
        if recTarget scoreFn now cfg p.fst p.snd = tgt then
          some (mkTableRec p.fst p.snd) else none))).map TableRecommendation.Name := by
    intro tgt hne hmm
    obtain ⟨rec, hrec, hrcn⟩ := List.mem_map.mp hmm
    rw [mem_sortBySizeDesc] at hrec
    obtain ⟨p, hp, hif⟩ := List.mem_filterMap.mp hrec
    by_cases hc : recTarget scoreFn now cfg p.fst p.snd = tgt
    · rw [if_pos hc] at hif
      injection hif with hif
      have hfst : p.fst = name := by rw [← hrcn, ← hif]; rfl
      rw [hfst, huniq p hp hfst] at hc
      exact hne hc
    · rw [if_neg hc] at hif
      simp at hif
  have hMemZu : ∀ tgt : RecTarget, recTarget scoreFn now cfg name t = tgt →
      mkTableRec name t ∈ sortBySizeDesc (tables.filterMap (fun p =>
        if recTarget scoreFn now cfg p.fst p.snd = tgt then
          some (mkTableRec p.fst p.snd) else none)) := by
    intro tgt htgt
    exact (mem_sortBySizeDesc _ _).mpr
      (List.mem_filterMap.mpr ⟨(name, t), hmem, by rw [if_pos htgt]⟩)
  constructor
  · rintro ⟨hsz, hsc, hmv, hdeps⟩
    refine ⟨?_, ?_, ?_, ?_, ?_⟩
    · intro hrep
      have htgt : recTarget scoreFn now cfg name t = .zuRep := by
        unfold recTarget
        rw [if_pos hzu, if_pos ⟨hsz, hsc, hmv, hdeps⟩, if_pos hrep]
      exact ⟨hMemZu _ htgt, hNotZu .zuNonRep (by rw [htgt]; decide)⟩
    · intro hrep
      have htgt : recTarget scoreFn now cfg name t = .zuNonRep := by
        unfold recTarget
        rw [if_pos hzu, if_pos ⟨hsz, hsc, hmv, hdeps⟩, if_neg (by simp [hrep])]
      exact ⟨hMemZu _ htgt, hNotZu .zuRep (by rw [htgt]; decide)⟩
    · by_cases hrep : t.IsReplicated = true
      · have htgt : recTarget scoreFn now cfg name t = .zuRep := by
          unfold recTarget
          rw [if_pos hzu, if_pos ⟨hsz, hsc, hmv, hdeps⟩, if_pos hrep]
        exact hNotStd .safeToDrop (by rw [htgt]; decide)
      · have htgt : recTarget scoreFn now cfg name t = .zuNonRep := by
          unfold recTarget
          rw [if_pos hzu, if_pos ⟨hsz, hsc, hmv, hdeps⟩, if_neg hrep]
        exact hNotStd .safeToDrop (by rw [htgt]; decide)
    · by_cases hrep : t.IsReplicated = true
      · have htgt : recTarget scoreFn now cfg name t = .zuRep := by
          unfold recTarget
          rw [if_pos hzu, if_pos ⟨hsz, hsc, hmv, hdeps⟩, if_pos hrep]
        exact hNotStd .likelySafe (by rw [htgt]; decide)
      · have htgt : recTarget scoreFn now cfg name t = .zuNonRep := by
          unfold recTarget
          rw [if_pos hzu, if_pos ⟨hsz, hsc, hmv, hdeps⟩, if_neg hrep]
        exact hNotStd .likelySafe (by rw [htgt]; decide)
    · by_cases hrep : t.IsReplicated = true
      · have htgt : recTarget scoreFn now cfg name t = .zuRep := by
          unfold recTarget
          rw [if_pos hzu, if_pos ⟨hsz, hsc, hmv, hdeps⟩, if_pos hrep]
        exact hNotStd .keep (by rw [htgt]; decide)
      · have htgt : recTarget scoreFn now cfg name t = .zuNonRep := by
          unfold recTarget
          rw [if_pos hzu, if_pos ⟨hsz, hsc, hmv, hdeps⟩, if_neg hrep]
        exact hNotStd .keep (by rw [htgt]; decide)
  · intro hlt
    have htgt : recTarget scoreFn now cfg name t = .skipped := by
      unfold recTarget
      rw [if_pos hzu, if_neg (fun hcond => absurd hcond.1 (not_le.mpr hlt))]
    exact ⟨hNotZu .zuNonRep (by rw [htgt]; decide),
      hNotZu .zuRep (by rw [htgt]; decide)⟩

/-- C1 (witness): a 2 MB non-replicated zero-usage table lands in the
non-replicated zero-usage bucket and nowhere else. -/
theorem zero_usage_buckets_spec_witness :
    mkTableRec "db.zero" { ZeroUsage := true, TotalBytes := 2000000, Database := "db" } ∈
      (generateRecommendations (fun _ => 0) 0 { MinTableSizeMB := 1 }
        [("db.zero", { ZeroUsage := true, TotalBytes := 2000000, Database := "db" })]
        ).ZeroUsageNonReplicated ∧
    "db.zero" ∉ (generateRecommendations (fun _ => 0) 0 { MinTableSizeMB := 1 }
      [("db.zero", { ZeroUsage := true, TotalBytes := 2000000, Database := "db" })]
      ).Keep := by
  have h := zero_usage_buckets_spec (fun _ => 0) 0 { MinTableSizeMB := 1 }
    [("db.zero", { ZeroUsage := true, TotalBytes := 2000000, Database := "db" })]
    "db.zero" { ZeroUsage := true, TotalBytes := 2000000, Database := "db" }
    (by decide) (List.mem_singleton.mpr rfl) rfl
  have h1 := h.1 ⟨by norm_num [tableSizeMB], by norm_num, rfl, rfl⟩
  exact ⟨(h1.2.1 rfl).1, h1.2.2.2.2⟩

/-- C2: under the spec-modelled recommendation pipeline, a table that reaches
and passes the safety gate (so in particular is not routed by the zero-usage
branch) is classified `likely-safe` whenever `min_query_count` is positive and
the table's query count — the sum of its activity series when non-empty, else
`reads + writes` — is below the floor, regardless of its score category. -/
theorem min_query_floor_likely_safe (scoreFn : Table → Rat) (now : Int)
    (cfg : Config) (tables : List (String × Table)) (name : String) (t : Table)
    (hmem : (name, t) ∈ tables) (hzu : t.ZeroUsage = false)
    (hgate : isSafeToRecommend name t now = true)
    (hmq : 0 < cfg.MinQueryCount)
    (hlow : tableQueryCount t < cfg.MinQueryCount) :
    name ∈ (generateRecommendations scoreFn now cfg tables).LikelySafe := by
  have htgt : recTarget scoreFn now cfg name t = .likelySafe := by
    unfold recTarget
    rw [if_neg (by simp [hzu]), if_neg (by simp [hgate]), if_pos ⟨hmq, hlow⟩]
  exact List.mem_filterMap.mpr ⟨(name, t), hmem, by rw [if_pos htgt]⟩

/-- C2 (witness): with `min_query_count = 10`, a gate-passing table whose
activity series sums to 2 is placed in `likely-safe` even though its raw reads
are high. -/
theorem min_query_floor_likely_safe_witness :
    "db.low" ∈ (generateRecommendations (fun _ => 1) 1000000
      { MinQueryCount := 10 }
      [("db.low", { Reads := 1500, Sparkline := [{ Timestamp := 0, Value := 2 }] })]).LikelySafe := by
  exact min_query_floor_likely_safe (fun _ => 1) 1000000 { MinQueryCount := 10 }
    [("db.low", { Reads := 1500, Sparkline := [{ Timestamp := 0, Value := 2 }] })]
    "db.low" { Reads := 1500, Sparkline := [{ Timestamp := 0, Value := 2 }] }
    (List.mem_singleton.mpr rfl) rfl (by decide) (by decide) (by decide)

end ClickSpectre
